import Mathlib

/-!
Shallow embedding of the pgcopy copy engine (src/internal/copy/engine.go)
together with proofs about its query compiler, transformation expander,
table operation, job runner and close logic.

Conventions of the embedding:
* Go strings are Lean `String`s; `fmt.Sprintf`/`+` concatenation becomes `++`.
* Go's `map[string]string` table-transform map is embedded as a lookup
  function `String → Option String`.
* Fallible Go functions returning `(T, error)` become `Except String T`,
  the error being its message string.
* Database effects (catalog query, TRUNCATE execution, COPY protocol
  execution) are supplied by an explicit environment record, so the
  orchestration code is a pure function of that environment.
-/

namespace PgCopy

/-- Model of `schema.TableInfo` (src/internal/schema/config.go): schema name,
table name, ignored columns, transform map, row filter and truncate flag. -/
structure TableInfo where
  Schema : String
  Table : String
  Ignore : List String
  Transform : String → Option String
  Filter : String
  Truncate : Bool

/-- Character-level model of Go `strings.ReplaceAll(s, "$1", col)` as used by
`expandTransformation`: scan left to right, replacing each (non-overlapping)
occurrence of the two-character pattern `$1` by the column name. -/
def subst1 (col : String) : List Char → List Char
  | [] => []
  | [c] => [c]
  | c :: d :: rest =>
      if c = '$' ∧ d = '1' then col.data ++ subst1 col rest
      else c :: subst1 col (d :: rest)

/-- Decides whether a character list contains an occurrence of the
pattern `$1`. -/
def hasDollarOne : List Char → Bool
  | [] => false
  | [_] => false
  | c :: d :: rest =>
      if c = '$' ∧ d = '1' then true else hasDollarOne (d :: rest)

/-- Model of `expandTransformation` (engine.go lines 208-225): the Go
`switch` on the transformation token becomes a chain of string
comparisons; the `default` arm of the switch applies
`strings.ReplaceAll(transformation, "$1", columnName)`. -/
def expandTransformation (transformation columnName : String) : String :=
  if transformation = "hash" then
    "encode(sha256(" ++ columnName ++ "::text::bytea), 'hex')"
  else if transformation = "redact" then
    "'***REDACTED***'"
  else if transformation = "anonymize" then
    "'anon-' || encode(sha256(" ++ columnName ++ "::text::bytea), 'hex')"
  else if transformation = "nullify" then
    "NULL"
  else if transformation = "default" then
    "COALESCE(" ++ columnName ++ ", NULL)"
  else
    ⟨subst1 columnName transformation.data⟩

/-- Model of `formatColumns` (engine.go lines 291-301): start from the first
column and append `", " + column` for each remaining one; empty list gives
the empty string. -/
def formatColumns (columns : List String) : String :=
  match columns with
  | [] => ""
  | c :: rest => rest.foldl (fun result col => result ++ ", " ++ col) c

/-- Loop body of `buildSourceCopyQuery` (engine.go lines 185-194): append to
`columnList` either `<expanded> AS <col>` when the transform map has an
entry for `col`, or the bare column name. -/
def appendFragment (table : TableInfo) (columnList : List String) (col : String) : List String :=
  match table.Transform col with
  | some transformation =>
      columnList ++ [expandTransformation transformation col ++ " AS " ++ col]
  | none => columnList ++ [col]

/-- Model of `buildSourceCopyQuery` (engine.go lines 178-205): error when the
column list is empty, otherwise build the projection list and produce the
`COPY (SELECT ...) TO STDOUT` statement, rebuilt with a `WHERE` clause when
the table's filter is non-empty. -/
def buildSourceCopyQuery (table : TableInfo) (columns : List String) : Except String String :=
  if columns.length = 0 then
    .error ("no columns to copy for table " ++ table.Schema ++ "." ++ table.Table)
  else
    let columnList := columns.foldl (appendFragment table) []
    let query := "COPY (SELECT " ++ formatColumns columnList ++ " FROM " ++
      table.Schema ++ "." ++ table.Table ++ ") TO STDOUT"
    let query := if table.Filter ≠ "" then
        "COPY (SELECT " ++ formatColumns columnList ++ " FROM " ++
          table.Schema ++ "." ++ table.Table ++ " WHERE " ++ table.Filter ++ ") TO STDOUT"
      else query
    .ok query

/-- Model of `buildTargetCopyQuery` (engine.go lines 228-236): error when the
column list is empty, otherwise `COPY <schema>.<table> (<columns>) FROM STDIN`
over the raw resolved column names. -/
def buildTargetCopyQuery (table : TableInfo) (columns : List String) : Except String String :=
  if columns.length = 0 then
    .error ("no columns to copy for table " ++ table.Schema ++ "." ++ table.Table)
  else
    .ok ("COPY " ++ table.Schema ++ "." ++ table.Table ++ " (" ++
      formatColumns columns ++ ") FROM STDIN")

/-- Model of `Stats` (engine.go lines 25-31). `TablesProcessed` is a Go `int`
only ever incremented by one starting from zero, so `Nat` suffices;
`RowsCopied` is a Go `int64` (row counts are far below overflow, so plain
`Int` is used); `Errors` is the ordered error-message list; the two time
stamps are opaque clock readings. -/
structure Stats where
  TablesProcessed : Nat
  RowsCopied : Int
  Errors : List String
  StartTime : Int
  EndTime : Int

/-- Fresh statistics as created by `NewEngine` (engine.go lines 48-54): only
`StartTime` is set, everything else is the Go zero value. -/
def freshStats (startTime : Int) : Stats :=
  { TablesProcessed := 0, RowsCopied := 0, Errors := [], StartTime := startTime,
    EndTime := 0 }

/-- Database effects consumed by the engine, supplied as an explicit
environment: `execTruncate` models `targetConn.GetPool().Exec` of a TRUNCATE
statement, `catalog` models the `information_schema.columns` query of
`getTableColumns` (returning the raw ordered column names before ignore
filtering, or a connectivity error), and `execCopy` models
`executeCopyWithProtocol` (returning the loaded row count or the surfaced
error). -/
structure Env where
  execTruncate : String → Except String Unit
  catalog : TableInfo → Except String (List String)
  execCopy : String → String → Except String Int

/-- Model of `getTableColumns` (engine.go lines 147-175): run the catalog
query and keep, in order, the columns not in the table's ignore list. -/
def getTableColumns (env : Env) (table : TableInfo) : Except String (List String) :=
  match env.catalog table with
  | .error e => .error e
  | .ok cols => .ok (cols.filter (fun col => ! table.Ignore.contains col))

/-- Model of `truncateTable` (engine.go lines 239-248): execute
`TRUNCATE TABLE <schema>.<table> CASCADE` against the target and wrap a
failure as `failed to execute truncate: <err>`. -/
def truncateTable (env : Env) (table : TableInfo) : Except String Unit :=
  match env.execTruncate ("TRUNCATE TABLE " ++ table.Schema ++ "." ++
      table.Table ++ " CASCADE") with
  | .error e => .error ("failed to execute truncate: " ++ e)
  | .ok _ => .ok ()

/-- Observable steps of one table operation, used to state ordering
properties of `copyTable`. -/
inductive Step where
  | truncateStep
  | resolveStep
  | compileSourceStep
  | compileTargetStep
  | transferStep
deriving DecidableEq

/-- Steps of `copyTable` after the optional truncate (engine.go lines
119-143): resolve columns, build both COPY statements, then execute the
transfer; each failure is wrapped with the source's message and aborts the
remaining steps. Returns the trace of steps that ran and the outcome (loaded
row count on success). -/
def copyTableBody (env : Env) (table : TableInfo) : List Step × Except String Int :=
  match getTableColumns env table with
  | .error e => ([.resolveStep], .error ("failed to get table columns: " ++ e))
  | .ok columns =>
    match buildSourceCopyQuery table columns with
    | .error e =>
        ([.resolveStep, .compileSourceStep],
          .error ("failed to build source copy query: " ++ e))
    | .ok sourceQuery =>
      match buildTargetCopyQuery table columns with
      | .error e =>
          ([.resolveStep, .compileSourceStep, .compileTargetStep],
            .error ("failed to build target copy query: " ++ e))
      | .ok targetQuery =>
        match env.execCopy sourceQuery targetQuery with
        | .error e =>
            ([.resolveStep, .compileSourceStep, .compileTargetStep, .transferStep],
              .error e)
        | .ok n =>
            ([.resolveStep, .compileSourceStep, .compileTargetStep, .transferStep],
              .ok n)

/-- Model of `copyTable` (engine.go lines 110-144): when the truncate flag is
set, truncate first; a truncate failure is wrapped as `failed to truncate
table <schema>.<table>: <err>` and nothing else runs. -/
def copyTable (env : Env) (table : TableInfo) : List Step × Except String Int :=
  if table.Truncate then
    match truncateTable env table with
    | .error e =>
        ([.truncateStep],
          .error ("failed to truncate table " ++ table.Schema ++ "." ++
            table.Table ++ ": " ++ e))
    | .ok _ =>
        (.truncateStep :: (copyTableBody env table).1, (copyTableBody env table).2)
  else copyTableBody env table

/-- Per-table bookkeeping of the job runner's loop body (engine.go lines
73-82): a failed table appends its error to the stats, a successful table
increments the tables-processed counter and adds the reported row count
(the row-count addition happens inside `executeCopyWithProtocol` in the
source, but only on full success of the table, which is exactly when
`copyTable` returns `ok`). -/
def copyStep (env : Env) (stats : Stats) (table : TableInfo) : Stats :=
  match (copyTable env table).2 with
  | .error e => { stats with Errors := stats.Errors ++ [e] }
  | .ok n =>
      { stats with
        TablesProcessed := stats.TablesProcessed + 1
        RowsCopied := stats.RowsCopied + n }

/-- Result of one job run: the final statistics, the tables attempted by the
loop in order, and the job-level error returned by `Copy`. -/
structure JobResult where
  stats : Stats
  attempted : List TableInfo
  jobError : Option String

/-- Model of `Copy` (engine.go lines 68-88): iterate all configured tables in
order, apply the per-table bookkeeping, stamp the end time, and return `nil`
as the job-level error. -/
def Copy (env : Env) (tables : List TableInfo) (s0 : Stats) (endTime : Int) :
    JobResult :=
  let result := tables.foldl
    (fun (acc : Stats × List TableInfo) table =>
      (copyStep env acc.1 table, acc.2 ++ [table])) (s0, [])
  { stats := { result.1 with EndTime := endTime }, attempted := result.2,
    jobError := none }

/-- Success test for a table outcome. -/
def isOkResult (r : Except String Int) : Bool :=
  match r with
  | .ok _ => true
  | .error _ => false

/-- Error component of a table outcome, if any. -/
def errorOf (r : Except String Int) : Option String :=
  match r with
  | .error e => some e
  | .ok _ => none

/-- Row-count component of a table outcome, if any. -/
def rowsOf (r : Except String Int) : Option Int :=
  match r with
  | .ok n => some n
  | .error _ => none

/-- Specification-side description of one projected fragment of the
extraction statement, used to compare the compiled query against the
spec's wording: `<expansion> AS <name>` for transformed columns, the bare
name otherwise. -/
def columnFragment (table : TableInfo) (col : String) : String :=
  match table.Transform col with
  | some transformation => expandTransformation transformation col ++ " AS " ++ col
  | none => col

theorem appendFragment_eq (table : TableInfo) (acc : List String) (col : String) :
    appendFragment table acc col = acc ++ [columnFragment table col] := by
  cases h : table.Transform col <;> simp [appendFragment, columnFragment, h]

theorem foldl_appendFragment (table : TableInfo) (columns : List String) :
    ∀ acc : List String,
      columns.foldl (appendFragment table) acc = acc ++ columns.map (columnFragment table) := by
  induction columns with
  | nil => intro acc; simp
  | cons c rest ih =>
      intro acc
      simp [List.foldl_cons, appendFragment_eq, ih]

theorem intercalate_go_foldl (as : List String) :
    ∀ acc : String, String.intercalate.go acc ", " as =
      as.foldl (fun result col => result ++ ", " ++ col) acc := by
  induction as with
  | nil => intro acc; rfl
  | cons a as ih => intro acc; simp [String.intercalate.go, ih]

theorem formatColumns_eq_intercalate (columns : List String) :
    formatColumns columns = String.intercalate ", " columns := by
  cases columns with
  | nil => rfl
  | cons c rest => simp [formatColumns, String.intercalate, intercalate_go_foldl]

theorem subst1_of_no_occurrence (col : String) :
    ∀ l : List Char, hasDollarOne l = false → subst1 col l = l := by
  intro l
  induction l using subst1.induct col with
  | case1 => intro _; rfl
  | case2 c => intro _; rfl
  | case3 c d rest hcd ih =>
      intro h
      rw [hasDollarOne, if_pos hcd] at h
      exact absurd h (by simp)
  | case4 c d rest hcd ih =>
      intro h
      rw [hasDollarOne, if_neg hcd] at h
      rw [subst1, if_neg hcd, ih h]

theorem subst1_leftmost (col : String) (b : List Char) :
    ∀ a : List Char, hasDollarOne a = false →
      subst1 col (a ++ '$' :: '1' :: b) = a ++ (col.data ++ subst1 col b) := by
  intro a
  induction a using hasDollarOne.induct with
  | case1 =>
      intro _
      rw [List.nil_append, List.nil_append, subst1, if_pos ⟨rfl, rfl⟩]
  | case2 c =>
      intro _
      rw [List.cons_append, List.nil_append, subst1, if_neg (by simp),
        subst1, if_pos ⟨rfl, rfl⟩]
      rfl
  | case3 c d rest hcd =>
      intro h
      rw [hasDollarOne, if_pos hcd] at h
      exact absurd h (by simp)
  | case4 c d rest hcd ih =>
      intro h
      rw [hasDollarOne, if_neg hcd] at h
      rw [List.cons_append, List.cons_append, subst1, if_neg hcd,
        ← List.cons_append, ih h]
      rfl

/-- Concrete table spec with a non-empty row filter and a `hash` transform on
the `email` column, used in witnesses and counterexamples. -/
def usersFiltered : TableInfo :=
  { Schema := "public", Table := "users", Ignore := [],
    Transform := fun col => if col = "email" then some "hash" else none,
    Filter := "active = true", Truncate := false }

/-- Concrete table spec with no filter and no transforms. -/
def usersPlain : TableInfo :=
  { Schema := "public", Table := "users", Ignore := [],
    Transform := fun _ => none, Filter := "", Truncate := false }

/-- Concrete table spec where every column carries a `hash` transform. -/
def usersAllTransformed : TableInfo :=
  { Schema := "public", Table := "users", Ignore := [],
    Transform := fun _ => some "hash", Filter := "", Truncate := false }

/-- C1 (amended): for every non-empty resolved column list and every table
spec, the compiled extraction statement is
`COPY (SELECT <fragments> FROM <schema>.<table>[ WHERE <filter>]) TO STDOUT`,
where the fragments are one per resolved column, in resolved order, joined by
`", "`, each being `<expanded-expression> AS <column-name>` when the column
has a transformation token and the bare column name otherwise; the ` WHERE
<filter>` part appears exactly when the spec's row filter is non-empty. -/
theorem buildSourceCopyQuery_shape (table : TableInfo) (columns : List String)
    (h : columns ≠ []) :
    buildSourceCopyQuery table columns =
      .ok ("COPY (SELECT " ++
        String.intercalate ", " (columns.map (columnFragment table)) ++ " FROM " ++
        table.Schema ++ "." ++ table.Table ++
        (if table.Filter = "" then "" else " WHERE " ++ table.Filter) ++ ") TO STDOUT") := by
  unfold buildSourceCopyQuery
  rw [if_neg (by simpa [List.length_eq_zero] using h)]
  simp only [foldl_appendFragment, List.nil_append, formatColumns_eq_intercalate]
  by_cases hf : table.Filter = "" <;>
    simp [hf, String.append_assoc]

/-- C1 counterexample: on a table spec carrying the non-empty row filter
`active = true`, the compiled extraction statement is not of the claimed
form `COPY (SELECT <fragments> FROM <schema>.<table>) TO STDOUT` — the code
additionally inserts a `WHERE` clause before the closing paren. -/
theorem buildSourceCopyQuery_template_fails_with_filter :
    buildSourceCopyQuery usersFiltered ["id"] =
      .ok "COPY (SELECT id FROM public.users WHERE active = true) TO STDOUT" ∧
    ("COPY (SELECT id FROM public.users WHERE active = true) TO STDOUT" : String) ≠
      "COPY (SELECT id FROM public.users) TO STDOUT" := by
  refine ⟨rfl, ?_⟩
  decide

/-- C1 witness: the amended statement evaluated on a concrete table spec with
a filter and one transformed column. -/
theorem buildSourceCopyQuery_shape_witness :
    buildSourceCopyQuery usersFiltered ["id", "email"] =
      .ok ("COPY (SELECT id, encode(sha256(email::text::bytea), 'hex') AS email" ++
        " FROM public.users WHERE active = true) TO STDOUT") := by
  rw [buildSourceCopyQuery_shape usersFiltered ["id", "email"] (by decide)]
  rfl

/-- C2: for every non-empty resolved column list, the compiled load statement
is `COPY <schema>.<table> (<column-names-joined-by-comma-space>) FROM STDIN`
over the unmodified resolved column names; the right-hand side does not
mention the table's transform map at all, so transformed expressions never
appear in the load statement, even when every column has a transform. -/
theorem buildTargetCopyQuery_spec (table : TableInfo) (columns : List String)
    (h : columns ≠ []) :
    buildTargetCopyQuery table columns =
      .ok ("COPY " ++ table.Schema ++ "." ++ table.Table ++ " (" ++
        String.intercalate ", " columns ++ ") FROM STDIN") := by
  unfold buildTargetCopyQuery
  rw [if_neg (by simpa [List.length_eq_zero] using h), formatColumns_eq_intercalate]

/-- C2 witness: the load statement for a table whose every column carries a
`hash` transform still lists the raw column names. -/
theorem buildTargetCopyQuery_spec_witness :
    buildTargetCopyQuery usersAllTransformed ["id", "email"] =
      .ok "COPY public.users (id, email) FROM STDIN" := by
  rw [buildTargetCopyQuery_spec usersAllTransformed ["id", "email"] (by decide)]
  rfl

/-- C3: with a non-empty row filter the compiled extraction statement ends
with `WHERE <filter>) TO STDOUT` (the filter sits immediately before the
closing paren); with an empty filter it is exactly the `WHERE`-free template
`COPY (SELECT <fragments> FROM <schema>.<table>) TO STDOUT`, so no `WHERE`
clause is inserted by the compiler, and in particular it ends with
`) TO STDOUT`. -/
theorem buildSourceCopyQuery_filter_spec (table : TableInfo) (columns : List String)
    (h : columns ≠ []) :
    (table.Filter ≠ "" → ∃ p : String,
      buildSourceCopyQuery table columns =
        .ok (p ++ ("WHERE " ++ table.Filter ++ ") TO STDOUT"))) ∧
    (table.Filter = "" →
      buildSourceCopyQuery table columns =
        .ok ("COPY (SELECT " ++
          String.intercalate ", " (columns.map (columnFragment table)) ++ " FROM " ++
          table.Schema ++ "." ++ table.Table ++ ") TO STDOUT")) := by
  constructor
  · intro hf
    refine ⟨"COPY (SELECT " ++
      String.intercalate ", " (columns.map (columnFragment table)) ++ " FROM " ++
      table.Schema ++ "." ++ table.Table ++ " ", ?_⟩
    rw [buildSourceCopyQuery_shape table columns h, if_neg hf]
    congr 1
    simp only [String.append_assoc]
    rw [← String.append_assoc " " "WHERE " (table.Filter ++ ") TO STDOUT")]
    rfl
  · intro hf
    rw [buildSourceCopyQuery_shape table columns h, if_pos hf]
    simp

/-- C3 witness: the filtered table's extraction statement ends with
`WHERE active = true) TO STDOUT`, and a filterless table compiles to the
exact `WHERE`-free template. -/
theorem buildSourceCopyQuery_filter_spec_witness :
    (∃ p : String, buildSourceCopyQuery usersFiltered ["id"] =
      .ok (p ++ ("WHERE " ++ "active = true" ++ ") TO STDOUT"))) ∧
    buildSourceCopyQuery usersPlain ["id", "name"] =
      .ok "COPY (SELECT id, name FROM public.users) TO STDOUT" := by
  constructor
  · exact (buildSourceCopyQuery_filter_spec usersFiltered ["id"] (by decide)).1 (by decide)
  · rw [(buildSourceCopyQuery_filter_spec usersPlain ["id", "name"] (by decide)).2 rfl]
    rfl

/-- C4: compiling with an empty resolved column list fails, for both the
extraction side and the load side, with the error naming the table as having
no columns to copy; no query string is produced (the result is `error`, not
`ok`). -/
theorem buildQueries_fail_on_empty_columns (table : TableInfo) :
    buildSourceCopyQuery table [] =
      .error ("no columns to copy for table " ++ table.Schema ++ "." ++ table.Table) ∧
    buildTargetCopyQuery table [] =
      .error ("no columns to copy for table " ++ table.Schema ++ "." ++ table.Table) :=
  ⟨rfl, rfl⟩

/-- C5: the transformation expander is a total pure function of the token and
column name: the five built-ins `hash`, `redact`, `anonymize`, `nullify` and
`default` expand to their fixed SQL forms (exact, case-sensitive match); any
other token is the custom fragment `subst1` — every occurrence of `$1`
textually replaced by the column name (the last conjunct: a leftmost `$1`
after a `$1`-free prefix is replaced and scanning continues) — and a token
with no `$1` is returned verbatim. -/
theorem expandTransformation_spec (c : String) :
    expandTransformation "hash" c = "encode(sha256(" ++ c ++ "::text::bytea), 'hex')" ∧
    expandTransformation "redact" c = "'***REDACTED***'" ∧
    expandTransformation "anonymize" c =
      "'anon-' || encode(sha256(" ++ c ++ "::text::bytea), 'hex')" ∧
    expandTransformation "nullify" c = "NULL" ∧
    expandTransformation "default" c = "COALESCE(" ++ c ++ ", NULL)" ∧
    (∀ t : String, t ≠ "hash" → t ≠ "redact" → t ≠ "anonymize" → t ≠ "nullify" →
      t ≠ "default" → expandTransformation t c = ⟨subst1 c t.data⟩) ∧
    (∀ t : String, t ≠ "hash" → t ≠ "redact" → t ≠ "anonymize" → t ≠ "nullify" →
      t ≠ "default" → hasDollarOne t.data = false → expandTransformation t c = t) ∧
    (∀ a b : List Char, hasDollarOne a = false →
      subst1 c (a ++ '$' :: '1' :: b) = a ++ (c.data ++ subst1 c b)) := by
  refine ⟨rfl, rfl, rfl, rfl, rfl, ?_, ?_, ?_⟩
  · intro t h1 h2 h3 h4 h5
    simp [expandTransformation, h1, h2, h3, h4, h5]
  · intro t h1 h2 h3 h4 h5 hno
    simp [expandTransformation, h1, h2, h3, h4, h5,
      subst1_of_no_occurrence c t.data hno]
  · intro a b ha
    exact subst1_leftmost c b a ha

/-- C5 witness: the built-in `hash`, the spec's custom token `UPPER($1)` with
column `name`, a placeholder-free custom token returned verbatim, and one
concrete leftmost replacement step. -/
theorem expandTransformation_spec_witness :
    expandTransformation "hash" "name" = "encode(sha256(name::text::bytea), 'hex')" ∧
    expandTransformation "UPPER($1)" "name" = "UPPER(name)" ∧
    expandTransformation "'fixed'" "name" = "'fixed'" ∧
    subst1 "name" ("UPPER(".data ++ '$' :: '1' :: ")".data) =
      "UPPER(".data ++ ("name".data ++ subst1 "name" ")".data) := by
  refine ⟨(expandTransformation_spec "name").1, ?_, ?_, ?_⟩
  · have h := (expandTransformation_spec "name").2.2.2.2.2.1 "UPPER($1)"
      (by decide) (by decide) (by decide) (by decide) (by decide)
    rw [h]
    rfl
  · exact (expandTransformation_spec "name").2.2.2.2.2.2.1 "'fixed'"
      (by decide) (by decide) (by decide) (by decide) (by decide) (by decide)
  · exact (expandTransformation_spec "name").2.2.2.2.2.2.2 "UPPER(".data ")".data
      (by decide)

theorem copyFold_attempted (env : Env) (tables : List TableInfo) :
    ∀ (s : Stats) (acc : List TableInfo),
      (tables.foldl (fun (a : Stats × List TableInfo) table =>
        (copyStep env a.1 table, a.2 ++ [table])) (s, acc)).2 = acc ++ tables := by
  induction tables with
  | nil => intro s acc; simp
  | cons t rest ih => intro s acc; simp [List.foldl_cons, ih]

theorem copyFold_stats (env : Env) (tables : List TableInfo) :
    ∀ (s : Stats) (acc : List TableInfo),
      (tables.foldl (fun (a : Stats × List TableInfo) table =>
        (copyStep env a.1 table, a.2 ++ [table])) (s, acc)).1 =
        tables.foldl (copyStep env) s := by
  induction tables with
  | nil => intro s acc; rfl
  | cons t rest ih => intro s acc; simp [List.foldl_cons, ih]

theorem foldl_copyStep_processed (env : Env) (tables : List TableInfo) :
    ∀ s : Stats,
      (tables.foldl (copyStep env) s).TablesProcessed =
        s.TablesProcessed +
          (tables.filter (fun t => isOkResult (copyTable env t).2)).length := by
  induction tables with
  | nil => intro s; simp
  | cons t rest ih =>
      intro s
      rw [List.foldl_cons, ih]
      cases h : (copyTable env t).2 with
      | error e => simp [copyStep, h, isOkResult]
      | ok n => simp [copyStep, h, isOkResult]; omega

theorem foldl_copyStep_errors (env : Env) (tables : List TableInfo) :
    ∀ s : Stats,
      (tables.foldl (copyStep env) s).Errors =
        s.Errors ++ tables.filterMap (fun t => errorOf (copyTable env t).2) := by
  induction tables with
  | nil => intro s; simp
  | cons t rest ih =>
      intro s
      rw [List.foldl_cons, ih]
      cases h : (copyTable env t).2 with
      | error e => simp [copyStep, h, errorOf]
      | ok n => simp [copyStep, h, errorOf]

theorem foldl_copyStep_rows (env : Env) (tables : List TableInfo) :
    ∀ s : Stats,
      (tables.foldl (copyStep env) s).RowsCopied =
        s.RowsCopied + (tables.filterMap (fun t => rowsOf (copyTable env t).2)).sum := by
  induction tables with
  | nil => intro s; simp
  | cons t rest ih =>
      intro s
      rw [List.foldl_cons, ih]
      cases h : (copyTable env t).2 with
      | error e => simp [copyStep, h, rowsOf]
      | ok n => simp [copyStep, h, rowsOf]; ring

/-- C6: the job runner attempts every configured table exactly once, in
configuration order, regardless of earlier failures (the loop never aborts),
and the run entry point returns success (`nil` job-level error) whatever the
per-table outcomes — including when all tables fail. -/
theorem Copy_attempts_all_and_returns_success (env : Env) (tables : List TableInfo)
    (s0 : Stats) (endTime : Int) :
    (Copy env tables s0 endTime).attempted = tables ∧
    (Copy env tables s0 endTime).jobError = none := by
  constructor
  · simp only [Copy]
    exact (copyFold_attempted env tables s0 []).trans (List.nil_append tables)
  · rfl

/-- C7: after a job run starting from fresh statistics, the tables-processed
counter equals the number of tables whose operation succeeded, the error list
contains exactly the error of each failed table in attempt order, and the
cumulative rows-copied counter is the sum of the row counts reported for the
successful tables (so a failed table contributes only its error and changes
neither counter). -/
theorem Copy_stats_spec (env : Env) (tables : List TableInfo)
    (startTime endTime : Int) :
    (Copy env tables (freshStats startTime) endTime).stats.TablesProcessed =
      (tables.filter (fun t => isOkResult (copyTable env t).2)).length ∧
    (Copy env tables (freshStats startTime) endTime).stats.Errors =
      tables.filterMap (fun t => errorOf (copyTable env t).2) ∧
    (Copy env tables (freshStats startTime) endTime).stats.RowsCopied =
      (tables.filterMap (fun t => rowsOf (copyTable env t).2)).sum := by
  refine ⟨?_, ?_, ?_⟩ <;>
    simp [Copy, copyFold_stats, foldl_copyStep_processed, foldl_copyStep_errors,
      foldl_copyStep_rows, freshStats]

/-- C8: for a table with the truncate flag set, the first step of the table
operation is always the truncate; and when the truncate fails, the operation
fails with the wrapped truncate error and no later step runs — the step
trace is exactly the singleton truncate step. -/
theorem copyTable_truncate_spec (env : Env) (table : TableInfo)
    (ht : table.Truncate = true) :
    (copyTable env table).1.head? = some .truncateStep ∧
    (∀ e, truncateTable env table = .error e →
      copyTable env table =
        ([.truncateStep],
          .error ("failed to truncate table " ++ table.Schema ++ "." ++
            table.Table ++ ": " ++ e))) := by
  constructor
  · rw [copyTable, if_pos ht]
    cases h : truncateTable env table with
    | error e => simp
    | ok u => simp
  · intro e he
    rw [copyTable, if_pos ht, he]

/-- Environment whose TRUNCATE execution always fails, used in the C8
witness. -/
def truncFailEnv : Env :=
  { execTruncate := fun _ => .error "boom",
    catalog := fun _ => .ok ["id"],
    execCopy := fun _ _ => .ok 0 }

/-- Concrete table spec with the truncate flag set. -/
def ordersTruncate : TableInfo :=
  { Schema := "public", Table := "orders", Ignore := [],
    Transform := fun _ => none, Filter := "", Truncate := true }

/-- C8 witness: with a failing TRUNCATE, the operation's trace is exactly the
truncate step and the outcome is the wrapped truncate error. -/
theorem copyTable_truncate_spec_witness :
    (copyTable truncFailEnv ordersTruncate).1.head? = some .truncateStep ∧
    copyTable truncFailEnv ordersTruncate =
      ([.truncateStep],
        .error "failed to truncate table public.orders: failed to execute truncate: boom") :=
  ⟨(copyTable_truncate_spec truncFailEnv ordersTruncate rfl).1,
    (copyTable_truncate_spec truncFailEnv ordersTruncate rfl).2
      "failed to execute truncate: boom" rfl⟩

/-- Model of the conduit close signal in `executeCopyWithProtocol` (engine.go
lines 266-275): the producer goroutine runs the source COPY and, on failure,
closes the pipe's writer end with `source copy failed: <err>` as the close
reason (`w.CloseWithError`); on success it closes the writer cleanly, which
the reader observes as a plain end-of-stream. -/
def pipeCloseSignal (producerResult : Except String Unit) : Except String Unit :=
  match producerResult with
  | .error e => .error ("source copy failed: " ++ e)
  | .ok _ => .ok ()

/-- Model of `executeCopyWithProtocol` (engine.go lines 251-288) after both
connections are acquired, sequentialized over the two concurrent sides: the
consumer's `CopyFrom` fails with the reader's propagated close reason when
the producer failed, otherwise with its own load outcome; either consumer
failure is wrapped as `target copy failed: <err>`; on clean end-of-stream
and a successful load, the loaded row count is returned. -/
def executeCopyWithProtocol (producerResult : Except String Unit)
    (loadResult : Except String Int) : Except String Int :=
  match pipeCloseSignal producerResult with
  | .error e => .error ("target copy failed: " ++ e)
  | .ok _ =>
    match loadResult with
    | .error e => .error ("target copy failed: " ++ e)
    | .ok n => .ok n

/-- C9: when the producer's extraction fails mid-stream, the writer end is
closed with the failure as close reason (`source copy failed: <err>`), and
the transfer's surfaced result carries that extraction-side marker: it is
`target copy failed: source copy failed: <err>`, which contains the
substring `source copy failed` naming the extraction side — unlike a pure
load-side failure, which surfaces `target copy failed: <err>` with no
source marker — rather than a generic stream-closed error. -/
theorem executeCopy_source_failure_attribution (e : String)
    (loadResult : Except String Int) :
    pipeCloseSignal (.error e) = .error ("source copy failed: " ++ e) ∧
    executeCopyWithProtocol (.error e) loadResult =
      .error ("target copy failed: " ++ ("source copy failed: " ++ e)) ∧
    (∀ e' : String, executeCopyWithProtocol (.ok ()) (.error e') =
      .error ("target copy failed: " ++ e')) ∧
    (∃ p q : String,
      "target copy failed: " ++ ("source copy failed: " ++ e) =
        p ++ ("source copy failed" ++ q)) := by
  refine ⟨rfl, rfl, fun e' => rfl, "target copy failed: ", ": " ++ e, ?_⟩
  congr 1

/-- Connection handle of the external `db` package; `closed` records whether
its `Close` ran. -/
structure Conn where
  closed : Bool

/-- Closing a live connection marks it closed. -/
def connClose (c : Conn) : Conn := { c with closed := true }

/-- Calling `Close` through a possibly-nil connection pointer: dereferencing
a nil pointer is a panic, modelled as `none`. -/
def closePtr : Option Conn → Option (Option Conn)
  | none => none
  | some c => some (some (connClose c))

/-- Model of the engine's two connection pointers, either of which may be
nil. -/
structure Engine where
  sourceConn : Option Conn
  targetConn : Option Conn

/-- Model of `Engine.Close` (engine.go lines 58-65): each connection is
closed only behind a nil check, so the nil-unsafe `closePtr` is reached only
for non-nil pointers; an overall result of `none` would represent a panic
escaping `Close`. -/
def engineClose (e : Engine) : Option Engine :=
  match (if e.sourceConn.isSome then closePtr e.sourceConn else some e.sourceConn) with
  | none => none
  | some s =>
    match (if e.targetConn.isSome then closePtr e.targetConn else some e.targetConn) with
    | none => none
    | some t => some { sourceConn := s, targetConn := t }

/-- C10: closing the engine never panics for any combination of present and
absent connections, and afterwards every present connection is closed while
an absent connection stays absent. -/
theorem engineClose_safe (e : Engine) :
    engineClose e =
      some { sourceConn := e.sourceConn.map connClose
             targetConn := e.targetConn.map connClose } := by
  cases hs : e.sourceConn <;> cases ht : e.targetConn <;>
    simp [engineClose, closePtr, hs, ht]

end PgCopy
